import Mathlib

/-!
Verification of the passmngr encrypted-vault engine against its specification.

The development shallowly embeds the Rust sources:
* `src/model.rs`   — `Entry`, `Vault`, search;
* `src/crypto.rs`  — `KdfParams`, `CipherParams`, `EncryptionKey` with
  `derive` / `encrypt` / `decrypt`;
* `src/storage.rs` — the on-disk container (`VaultFile`) with `load` / `save`;
* `src/app.rs`     — the session layer (`App::unlock`).

Modelling conventions:
* Bytes are natural numbers.  `Uuid` values and `DateTime<Utc>` timestamps are
  opaque payload data for the persistence engine, so they are modelled as
  natural numbers carried through serialization unchanged.
* `serde_json` serialization of the vault and of the container is modelled by
  an injective, length-prefixed positional codec with a total decoder on its
  range; a malformed byte stream decodes to `none` (the `SerializationError`
  case of the source).
* The external cryptographic primitives (the `argon2` and `chacha20poly1305`
  crates) are idealized as collision-free ("perfect") primitives, which is how
  the specification reasons about them: Argon2id is an injective function of
  (passphrase, salt, cost parameters) producing exactly 32 bytes, and
  ChaCha20-Poly1305 is an AEAD whose tag authenticates exactly the triple
  (key, nonce, ciphertext body).  The validation performed by the crates
  before hashing is kept: `ParamsBuilder::build` rejects inconsistent cost
  parameters (`ParameterError`), and `SaltString::encode_b64` rejects salts
  whose Base64 encoding exceeds the 64-character salt-string limit
  (`SaltEncodeError`).  The internal-failure path of the primitive
  (`DerivationError`) cannot occur in the idealized primitive.
* `OsRng` is modelled as an entropy oracle `Nat → Nat` passed explicitly to
  the operations that draw randomness; each `fill_bytes` call reads a prefix
  of its oracle.  Entropy-source failure is not modelled (the oracle is
  total).
* The filesystem is a map from paths to byte contents.  A Rust `Path` is
  modelled by its stem and optional extension, which is exactly the part of
  the path that `Path::with_extension` manipulates.  Writes of whole files
  and renames are the two operations `VaultFile::save` performs; directory
  creation (`ensure_dir`) is idempotent bookkeeping with no effect in this
  model.
-/

namespace Passmngr

/-! ## Data model (`src/model.rs`) -/

/-- A single password entry (`model.rs::Entry`).  `id` models the `Uuid`,
`created` / `modified` model the `DateTime<Utc>` timestamps. -/
structure Entry where
  id : Nat
  created : Nat
  modified : Nat
  name : String
  username : String
  password : String
  url : Option String
  notes : Option String
  tags : List String
  deriving DecidableEq, Repr

/-- The vault containing all password entries (`model.rs::Vault`). -/
structure Vault where
  version : Nat
  entries : List Entry
  deriving DecidableEq, Repr

/-- Substring test (model of Rust `str::contains`). -/
def strContains (s q : String) : Bool :=
  (List.range (s.length + 1)).any fun i => q.isPrefixOf (s.drop i)

/-- Case-insensitive search match (`model.rs::Entry::matches`). -/
def Entry.entryMatches (e : Entry) (query : String) : Bool :=
  let q := query.toLower
  strContains e.name.toLower q ||
  strContains e.username.toLower q ||
  (match e.url with
   | some u => strContains u.toLower q
   | none => false) ||
  (match e.notes with
   | some n => strContains n.toLower q
   | none => false) ||
  e.tags.any fun t => strContains t.toLower q

/-- Search entries by query (`model.rs::Vault::search`). -/
def Vault.search (v : Vault) (query : String) : List Entry :=
  if query = "" then v.entries else v.entries.filter fun e => e.entryMatches query

/-! ## Vault serialization (model of `serde_json::to_vec` / `from_slice` on `Vault`) -/

/-- Length-prefixed encoding of a string as its character codes. -/
def serializeString (s : String) : List Nat :=
  s.data.length :: s.data.map Char.toNat

/-- Encoding of an optional string with a presence tag. -/
def serializeOptionString : Option String → List Nat
  | none => [0]
  | some s => 1 :: serializeString s

/-- Count-prefixed encoding of a tag list. -/
def serializeTags (ts : List String) : List Nat :=
  ts.length :: ts.foldr (fun s acc => serializeString s ++ acc) []

/-- Positional encoding of one entry, fields in declaration order. -/
def serializeEntry (e : Entry) : List Nat :=
  e.id :: e.created :: e.modified ::
    (serializeString e.name ++ serializeString e.username ++ serializeString e.password ++
      serializeOptionString e.url ++ serializeOptionString e.notes ++ serializeTags e.tags)

/-- Serialization of the whole vault: version, entry count, then the entries. -/
def serializeVault (v : Vault) : List Nat :=
  v.version :: v.entries.length :: v.entries.foldr (fun e acc => serializeEntry e ++ acc) []

/-- Read one number from the stream. -/
def readNat : List Nat → Option (Nat × List Nat)
  | [] => none
  | a :: rest => some (a, rest)

/-- Read one length-prefixed block from the stream. -/
def readBlock : List Nat → Option (List Nat × List Nat)
  | [] => none
  | n :: rest => if n ≤ rest.length then some (rest.take n, rest.drop n) else none

/-- Read one string from the stream. -/
def readString (l : List Nat) : Option (String × List Nat) :=
  match readBlock l with
  | none => none
  | some (cs, rest) => some (String.mk (cs.map Char.ofNat), rest)

/-- Read one optional string from the stream. -/
def readOptionString : List Nat → Option (Option String × List Nat)
  | [] => none
  | 0 :: rest => some (none, rest)
  | 1 :: rest =>
    match readString rest with
    | none => none
    | some (s, rest') => some (some s, rest')
  | _ :: _ => none

/-- Read `n` strings from the stream. -/
def readTagsAux : Nat → List Nat → Option (List String × List Nat)
  | 0, l => some ([], l)
  | n + 1, l =>
    match readString l with
    | none => none
    | some (s, rest) =>
      match readTagsAux n rest with
      | none => none
      | some (ss, rest') => some (s :: ss, rest')

/-- Read a count-prefixed tag list from the stream. -/
def readTags (l : List Nat) : Option (List String × List Nat) :=
  match readNat l with
  | none => none
  | some (n, rest) => readTagsAux n rest

/-- Read one entry from the stream. -/
def readEntry (l : List Nat) : Option (Entry × List Nat) := do
  let (id, l) ← readNat l
  let (created, l) ← readNat l
  let (modified, l) ← readNat l
  let (name, l) ← readString l
  let (username, l) ← readString l
  let (password, l) ← readString l
  let (url, l) ← readOptionString l
  let (notes, l) ← readOptionString l
  let (tags, l) ← readTags l
  pure (⟨id, created, modified, name, username, password, url, notes, tags⟩, l)

/-- Read `n` entries from the stream. -/
def readEntriesAux : Nat → List Nat → Option (List Entry × List Nat)
  | 0, l => some ([], l)
  | n + 1, l =>
    match readEntry l with
    | none => none
    | some (e, rest) =>
      match readEntriesAux n rest with
      | none => none
      | some (es, rest') => some (e :: es, rest')

/-- Deserialization of a vault; rejects malformed or trailing data. -/
def deserializeVault (l : List Nat) : Option Vault :=
  match readNat l with
  | none => none
  | some (version, l) =>
    match readNat l with
    | none => none
    | some (count, l) =>
      match readEntriesAux count l with
      | none => none
      | some (entries, rest) =>
        match rest with
        | [] => some ⟨version, entries⟩
        | _ :: _ => none

/-! ## Cryptography (`src/crypto.rs`) -/

/-- Size of encryption key in bytes (`crypto.rs::KEY_SIZE`). -/
def KEY_SIZE : Nat := 32

/-- Size of nonce in bytes (`crypto.rs::NONCE_SIZE`). -/
def NONCE_SIZE : Nat := 12

/-- Size of salt in bytes (`crypto.rs::SALT_SIZE`). -/
def SALT_SIZE : Nat := 16

/-- KDF parameters stored with the vault (`crypto.rs::KdfParams`). -/
structure KdfParams where
  algorithm : String
  salt : List Nat
  time_cost : Nat
  memory_cost : Nat
  parallelism : Nat
  deriving DecidableEq, Repr

/-- Fresh KDF parameters with a random 16-byte salt and the fixed recommended
costs (`crypto.rs::KdfParams::new`); `rng` models `OsRng::fill_bytes`. -/
def KdfParams.new (rng : Nat → Nat) : KdfParams :=
  { algorithm := "argon2id"
    salt := (List.range SALT_SIZE).map rng
    time_cost := 3
    memory_cost := 65536
    parallelism := 4 }

/-- Cipher parameters stored with the vault (`crypto.rs::CipherParams`). -/
structure CipherParams where
  algorithm : String
  nonce : List Nat
  deriving DecidableEq, Repr

/-- Fresh cipher parameters with a random 12-byte nonce
(`crypto.rs::CipherParams::new`). -/
def CipherParams.new (rng : Nat → Nat) : CipherParams :=
  { algorithm := "chacha20poly1305"
    nonce := (List.range NONCE_SIZE).map rng }

/-- Encryption key derived from the master password
(`crypto.rs::EncryptionKey`): a 32-byte buffer. -/
structure EncryptionKey where
  key : List Nat
  deriving DecidableEq, Repr

/-- Error taxonomy of the engine (section 7 of the specification); the source
surfaces these as distinct `anyhow` error values. -/
inductive Err where
  | IoError
  | SerializationError
  | UnsupportedVersionError (v : Nat)
  | ParameterError
  | SaltEncodeError
  | DerivationError
  | NonceSizeError
  | AuthenticationError
  deriving DecidableEq, Repr

/-- Injective encoding of a byte list into one number (via `Nat.pair`); used
only to build the idealized primitives, never stored. -/
def encListN : List Nat → Nat
  | [] => 0
  | a :: l => Nat.pair a (encListN l) + 1

/-- Injective encoding of a string. -/
def encodeStringN (s : String) : Nat := encListN (s.data.map Char.toNat)

/-- Validation performed by `argon2::ParamsBuilder::build`: the cost
parameters must be self-consistent (at least one pass, at least one lane, and
at least 8 KiB of memory per lane). -/
def paramsValid (k : KdfParams) : Prop :=
  1 ≤ k.time_cost ∧ 1 ≤ k.parallelism ∧ 8 * k.parallelism ≤ k.memory_cost

instance : DecidablePred paramsValid := fun k => by
  unfold paramsValid; infer_instance

/-- Length of the unpadded Base64 encoding of `n` bytes; `SaltString`
rejects encodings longer than 64 characters. -/
def b64Len (n : Nat) : Nat := (4 * n + 2) / 3

/-- Idealized Argon2id digest seed: an injective function of the passphrase,
the salt and the cost parameters. -/
def kdfSeed (password : String) (k : KdfParams) : Nat :=
  Nat.pair (encodeStringN password)
    (Nat.pair (encListN k.salt) (Nat.pair k.time_cost (Nat.pair k.memory_cost k.parallelism)))

/-- Idealized Argon2id output: exactly `KEY_SIZE` bytes determined by the
digest seed.  The `algorithm` string field is not consulted: the source
hardcodes `argon2::Algorithm::Argon2id`. -/
def idealArgon2 (password : String) (k : KdfParams) : List Nat :=
  kdfSeed password k :: List.replicate (KEY_SIZE - 1) 0

/-- Derive the encryption key from the password
(`crypto.rs::EncryptionKey::derive`): build the Argon2 parameters (failing
with `ParameterError` on inconsistent costs), Base64-encode the salt (failing
with `SaltEncodeError` past the 64-character limit), then run the
(idealized) memory-hard hash producing exactly 32 bytes. -/
def EncryptionKey.derive (password : String) (params : KdfParams) : Except Err EncryptionKey :=
  if paramsValid params then
    if b64Len params.salt.length ≤ 64 then
      Except.ok ⟨idealArgon2 password params⟩
    else Except.error Err.SaltEncodeError
  else Except.error Err.ParameterError

/-- Mixing of all 32 key bytes into the cipher schedule (model of
`ChaCha20Poly1305::new_from_slice`, which consumes the whole buffer). -/
def cipherKeyNat (key : List Nat) : Nat := key.foldl Nat.xor key.length

/-- Keystream seed determined by key and nonce. -/
def streamKey (key nonce : List Nat) : Nat :=
  Nat.pair (cipherKeyNat key) (encListN nonce)

/-- Stream-cipher masking: byte `i` is XORed with the keystream byte at
position `i` (model of the ChaCha20 stream; XOR makes it an involution). -/
def maskFrom (kn : Nat) : Nat → List Nat → List Nat
  | _, [] => []
  | i, a :: rest => (a ^^^ Nat.pair kn i) :: maskFrom kn (i + 1) rest

/-- Idealized Poly1305 tag: authenticates exactly the triple
(key, nonce, ciphertext body); appended to the body as the final element of
the AEAD output. -/
def macTag (key nonce body : List Nat) : Nat :=
  Nat.pair (cipherKeyNat key) (Nat.pair (encListN nonce) (encListN body))

/-- Split a list into its initial part and final element. -/
def splitLast : List Nat → Option (List Nat × Nat)
  | [] => none
  | [a] => some ([], a)
  | a :: b :: rest =>
    match splitLast (b :: rest) with
    | none => none
    | some (ys, t) => some (a :: ys, t)

/-- Authenticated encryption (`crypto.rs::EncryptionKey::encrypt`): checks
the nonce size, masks the plaintext and appends the authentication tag.  No
associated data is used. -/
def EncryptionKey.encrypt (k : EncryptionKey) (plaintext : List Nat) (cp : CipherParams) :
    Except Err (List Nat) :=
  if cp.nonce.length = NONCE_SIZE then
    let body := maskFrom (streamKey k.key cp.nonce) 0 plaintext
    Except.ok (body ++ [macTag k.key cp.nonce body])
  else Except.error Err.NonceSizeError

/-- Authenticated decryption (`crypto.rs::EncryptionKey::decrypt`): checks
the nonce size, recomputes the tag over the body and fails with
`AuthenticationError` whenever it does not match the stored tag. -/
def EncryptionKey.decrypt (k : EncryptionKey) (ciphertext : List Nat) (cp : CipherParams) :
    Except Err (List Nat) :=
  if cp.nonce.length = NONCE_SIZE then
    match splitLast ciphertext with
    | none => Except.error Err.AuthenticationError
    | some (body, tag) =>
      if tag = macTag k.key cp.nonce body then
        Except.ok (maskFrom (streamKey k.key cp.nonce) 0 body)
      else Except.error Err.AuthenticationError
  else Except.error Err.NonceSizeError

/-! ## Storage (`src/storage.rs`) -/

/-- A filesystem path, modelled by the part `Path::with_extension`
manipulates: the stem and the optional extension of the final component. -/
structure PathM where
  stem : String
  ext : Option String
  deriving DecidableEq, Repr

/-- Model of Rust `Path::with_extension`: replace (or add) the extension. -/
def PathM.withExtension (p : PathM) (e : String) : PathM :=
  { p with ext := some e }

/-- The filesystem: a map from paths to file contents. -/
def FileSystem : Type := PathM → Option (List Nat)

/-- Whole-file write (`fs::write`). -/
def fsWrite (fs : FileSystem) (p : PathM) (data : List Nat) : FileSystem :=
  fun q => if q = p then some data else fs q

/-- Atomic rename (`fs::rename`): the destination receives the source's
contents and the source disappears. -/
def fsRename (fs : FileSystem) (src dst : PathM) : FileSystem :=
  fun q => if q = dst then fs src else if q = src then none else fs q

/-- The filesystem operations `VaultFile::save` performs after building the
container. -/
inductive FsOp where
  | write (p : PathM) (data : List Nat)
  | rename (src dst : PathM)
  deriving DecidableEq, Repr

/-- Apply one filesystem operation. -/
def applyOp (fs : FileSystem) : FsOp → FileSystem
  | FsOp.write p data => fsWrite fs p data
  | FsOp.rename src dst => fsRename fs src dst

/-- Apply a sequence of filesystem operations in order. -/
def applyOps (fs : FileSystem) (ops : List FsOp) : FileSystem :=
  ops.foldl applyOp fs

/-- Encrypted vault file format (`storage.rs::VaultFile`). -/
structure VaultFile where
  version : Nat
  kdf : KdfParams
  cipher : CipherParams
  ciphertext : List Nat
  deriving DecidableEq, Repr

/-- Container encoding of the KDF parameters. -/
def encodeKdf (k : KdfParams) : List Nat :=
  serializeString k.algorithm ++ (k.salt.length :: k.salt) ++
    [k.time_cost, k.memory_cost, k.parallelism]

/-- Container encoding of the cipher parameters. -/
def encodeCipher (c : CipherParams) : List Nat :=
  serializeString c.algorithm ++ (c.nonce.length :: c.nonce)

/-- Serialization of the on-disk container (model of
`serde_json::to_vec_pretty` on `VaultFile`): version, KDF parameters, cipher
parameters, ciphertext. -/
def encodeContainer (c : VaultFile) : List Nat :=
  c.version :: (encodeKdf c.kdf ++ encodeCipher c.cipher ++
    (c.ciphertext.length :: c.ciphertext))

/-- Deserialization of the on-disk container (model of
`serde_json::from_slice` on `VaultFile`); performs no semantic validation of
the field values, exactly like serde. -/
def decodeContainer (l : List Nat) : Option VaultFile :=
  match readNat l with
  | none => none
  | some (version, l) =>
    match readString l with
    | none => none
    | some (kalg, l) =>
      match readBlock l with
      | none => none
      | some (salt, l) =>
        match readNat l with
        | none => none
        | some (t, l) =>
          match readNat l with
          | none => none
          | some (m, l) =>
            match readNat l with
            | none => none
            | some (par, l) =>
              match readString l with
              | none => none
              | some (calg, l) =>
                match readBlock l with
                | none => none
                | some (nonce, l) =>
                  match readBlock l with
                  | none => none
                  | some (ct, l) =>
                    match l with
                    | [] => some ⟨version, ⟨kalg, salt, t, m, par⟩, ⟨calg, nonce⟩, ct⟩
                    | _ :: _ => none

/-- Cryptographic operations observable during a load; used to state that the
version gate short-circuits key derivation and decryption. -/
inductive CryptoEv where
  | deriveKey
  | decryptData
  deriving DecidableEq, Repr

/-- Load and decrypt the vault (`storage.rs::VaultFile::load`): read the
file, deserialize the container, verify `version == 1`, derive the key from
the stored KDF parameters, decrypt, deserialize the plaintext vault.  The
second component records which cryptographic operations ran. -/
def VaultFile.load (fs : FileSystem) (path : PathM) (password : String) :
    Except Err Vault × List CryptoEv :=
  match fs path with
  | none => (Except.error Err.IoError, [])
  | some contents =>
    match decodeContainer contents with
    | none => (Except.error Err.SerializationError, [])
    | some vf =>
      if vf.version = 1 then
        match EncryptionKey.derive password vf.kdf with
        | Except.error e => (Except.error e, [CryptoEv.deriveKey])
        | Except.ok key =>
          match key.decrypt vf.ciphertext vf.cipher with
          | Except.error e => (Except.error e, [CryptoEv.deriveKey, CryptoEv.decryptData])
          | Except.ok plaintext =>
            match deserializeVault plaintext with
            | none =>
              (Except.error Err.SerializationError, [CryptoEv.deriveKey, CryptoEv.decryptData])
            | some v => (Except.ok v, [CryptoEv.deriveKey, CryptoEv.decryptData])
      else (Except.error (Err.UnsupportedVersionError vf.version), [])

/-- The load result alone. -/
def loadV (fs : FileSystem) (path : PathM) (password : String) : Except Err Vault :=
  (VaultFile.load fs path password).1

/-- The container a save builds, as a total function (the fallible pipeline
`saveContainer` always reaches this value: the generated parameters are
always valid). -/
def saveContainerPure (vault : Vault) (password : String) (rngSalt rngNonce : Nat → Nat) :
    VaultFile :=
  let plaintext := serializeVault vault
  let kdf_params := KdfParams.new rngSalt
  let cipher_params := CipherParams.new rngNonce
  let body := maskFrom (streamKey (idealArgon2 password kdf_params) cipher_params.nonce) 0 plaintext
  { version := 1
    kdf := kdf_params
    cipher := cipher_params
    ciphertext := body ++ [macTag (idealArgon2 password kdf_params) cipher_params.nonce body] }

/-- The in-memory part of `storage.rs::VaultFile::save`: serialize the vault,
generate brand-new KDF and cipher parameters, derive the key, encrypt, and
build the version-1 container. -/
def saveContainer (vault : Vault) (password : String) (rngSalt rngNonce : Nat → Nat) :
    Except Err VaultFile :=
  let plaintext := serializeVault vault
  let kdf_params := KdfParams.new rngSalt
  let cipher_params := CipherParams.new rngNonce
  match EncryptionKey.derive password kdf_params with
  | Except.error e => Except.error e
  | Except.ok key =>
    match key.encrypt plaintext cipher_params with
    | Except.error e => Except.error e
    | Except.ok ciphertext =>
      Except.ok { version := 1
                  kdf := kdf_params
                  cipher := cipher_params
                  ciphertext := ciphertext }

/-- The filesystem operations of `storage.rs::VaultFile::save`: write the
serialized container to `path.with_extension("tmp")`, then rename it onto
the target. -/
def saveOps (path : PathM) (vault : Vault) (password : String) (rngSalt rngNonce : Nat → Nat) :
    Except Err (List FsOp) :=
  match saveContainer vault password rngSalt rngNonce with
  | Except.error e => Except.error e
  | Except.ok vf =>
    let temp_path := path.withExtension "tmp"
    Except.ok [FsOp.write temp_path (encodeContainer vf), FsOp.rename temp_path path]

/-- The operation list of a save, as a total function. -/
def saveOpsPure (path : PathM) (vault : Vault) (password : String)
    (rngSalt rngNonce : Nat → Nat) : List FsOp :=
  let temp_path := path.withExtension "tmp"
  [FsOp.write temp_path (encodeContainer (saveContainerPure vault password rngSalt rngNonce)),
   FsOp.rename temp_path path]

/-- Encrypt and save the vault (`storage.rs::VaultFile::save`). -/
def VaultFile.save (fs : FileSystem) (path : PathM) (vault : Vault) (password : String)
    (rngSalt rngNonce : Nat → Nat) : Except Err FileSystem :=
  match saveOps path vault password rngSalt rngNonce with
  | Except.error e => Except.error e
  | Except.ok ops => Except.ok (applyOps fs ops)

/-! ## Session layer (`src/app.rs`) -/

/-- Application mode (`app.rs::Mode`). -/
inductive Mode where
  | Normal
  | Insert
  | Search
  | Command
  | Detail
  | Locked
  deriving DecidableEq, Repr

/-- Application state (`app.rs::App`), restricted to the fields the session
lock/unlock logic reads or writes (the purely visual fields of the TUI are
omitted). -/
structure App where
  vault : Vault
  vault_path : PathM
  password : String
  mode : Mode
  selected : Nat
  search_query : String
  status_message : Option String
  dirty : Bool
  filtered_entries : List Nat
  last_activity : Nat
  unlock_input : String
  deriving DecidableEq, Repr

/-- Set the status message (`app.rs::App::set_status`). -/
def App.setStatus (a : App) (s : String) : App :=
  { a with status_message := some s }

/-- Recompute the filtered entries (`app.rs::App::update_search`), including
the clamp of the selected index. -/
def App.updateSearch (a : App) : App :=
  let fe := (a.vault.search a.search_query).map Entry.id
  let len := fe.length
  let non_empty := if 0 < len then 1 else 0
  { a with filtered_entries := fe, selected := min a.selected (len - 1) * non_empty }

/-- Attempt to unlock the vault (`app.rs::App::unlock`): load the vault from
disk with the entered passphrase; on success restore the session state, on
failure set a status message and clear the entered passphrase.  `now` models
`Instant::now()`; the returned boolean is `true` exactly on `Ok(())`. -/
def App.unlock (fs : FileSystem) (a : App) (now : Nat) : App × Bool :=
  match loadV fs a.vault_path a.unlock_input with
  | Except.ok v =>
    let a1 := { a with
                vault := v
                password := a.unlock_input
                filtered_entries := v.entries.map Entry.id }
    let a2 := a1.updateSearch
    (({ a2 with
        mode := Mode.Normal
        unlock_input := ""
        last_activity := now }).setStatus "Vault Unlocked", true)
  | Except.error _ =>
    (({ a with unlock_input := "" }).setStatus "Incorrect password or vault error", false)

/-- Flip bit `j` of byte `i` of a byte sequence. -/
def flipBit (bytes : List Nat) (i j : Nat) : List Nat :=
  bytes.set i (bytes.getD i 0 ^^^ 2 ^ j)

/-- Replace the two algorithm identifier strings of a container. -/
def withAlgorithms (vf : VaultFile) (kalg calg : String) : VaultFile :=
  { vf with
    kdf := { vf.kdf with algorithm := kalg }
    cipher := { vf.cipher with algorithm := calg } }

/-! ## Concrete objects used by witnesses and counterexamples -/

/-- The empty vault. -/
def vault0 : Vault := { version := 1, entries := [] }

/-- A vault path with the usual extension. -/
def path0 : PathM := { stem := "vault", ext := some "enc" }

/-- A vault path whose extension is already `tmp`. -/
def pathTmp : PathM := { stem := "vault", ext := some "tmp" }

/-- The empty filesystem. -/
def emptyFS : FileSystem := fun _ => none

/-- A constant-zero entropy oracle. -/
def rngZero : Nat → Nat := fun _ => 0

/-- A constant-one entropy oracle. -/
def rngOne : Nat → Nat := fun _ => 1

/-- KDF parameters with consistent costs but a 49-byte salt, whose Base64
encoding has 66 characters and exceeds the 64-character salt-string limit. -/
def kdfLongSalt : KdfParams :=
  { algorithm := "argon2id"
    salt := List.replicate 49 0
    time_cost := 3
    memory_cost := 65536
    parallelism := 4 }

/-- A well-formed container whose version field is 2. -/
def vfBad : VaultFile :=
  { version := 2
    kdf := { algorithm := "argon2id"
             salt := []
             time_cost := 3
             memory_cost := 65536
             parallelism := 4 }
    cipher := { algorithm := "chacha20poly1305", nonce := [] }
    ciphertext := [] }

/-- A locked application state over an empty filesystem. -/
def app0 : App :=
  { vault := vault0
    vault_path := path0
    password := ""
    mode := Mode.Locked
    selected := 0
    search_query := ""
    status_message := none
    dirty := false
    filtered_entries := []
    last_activity := 0
    unlock_input := "pw" }

/-- A filesystem holding a previously saved container at `pathTmp`. -/
def fs6 : FileSystem :=
  fsWrite emptyFS pathTmp (encodeContainer (saveContainerPure vault0 "a" rngZero rngZero))

/-- A filesystem produced by a completed save of `vault0` at `path0`. -/
def fsPrev : FileSystem :=
  applyOps emptyFS (saveOpsPure path0 vault0 "a" rngZero rngZero)

/-! ## Codec roundtrip lemmas -/

theorem charList_roundtrip (cs : List Char) : (cs.map Char.toNat).map Char.ofNat = cs := by
  simp [List.map_map, Function.comp_def, Char.ofNat_toNat]

theorem readBlock_append (xs t : List Nat) : readBlock (xs.length :: (xs ++ t)) = some (xs, t) := by
  have h : xs.length ≤ (xs ++ t).length := by simp
  simp [readBlock, h, List.take_left, List.drop_left]

theorem readBlock_exact (xs : List Nat) : readBlock (xs.length :: xs) = some (xs, []) := by
  simpa using readBlock_append xs []

theorem readString_append (s : String) (t : List Nat) :
    readString (serializeString s ++ t) = some (s, t) := by
  have h := readBlock_append (s.data.map Char.toNat) t
  rw [List.length_map] at h
  simp only [readString, serializeString, List.cons_append]
  rw [h]
  simp [Function.comp_def, Char.ofNat_toNat]

theorem readOptionString_append (o : Option String) (t : List Nat) :
    readOptionString (serializeOptionString o ++ t) = some (o, t) := by
  cases o with
  | none => rfl
  | some s => simp [serializeOptionString, readOptionString, readString_append s t]

theorem readTagsAux_append (ts : List String) (t : List Nat) :
    readTagsAux ts.length (ts.foldr (fun s acc => serializeString s ++ acc) [] ++ t)
      = some (ts, t) := by
  induction ts with
  | nil => rfl
  | cons s ss ih => simp [readTagsAux, List.append_assoc, readString_append, ih]

theorem readTags_append (ts : List String) (t : List Nat) :
    readTags (serializeTags ts ++ t) = some (ts, t) := by
  simp [readTags, serializeTags, readNat, List.cons_append, readTagsAux_append]

theorem readEntry_append (e : Entry) (t : List Nat) :
    readEntry (serializeEntry e ++ t) = some (e, t) := by
  rcases e with ⟨id, cr, mo, na, us, pw, ur, no, tg⟩
  simp [readEntry, serializeEntry, readNat, List.cons_append, List.append_assoc,
    readString_append, readOptionString_append, readTags_append]

theorem readEntriesAux_append (es : List Entry) (t : List Nat) :
    readEntriesAux es.length (es.foldr (fun e acc => serializeEntry e ++ acc) [] ++ t)
      = some (es, t) := by
  induction es with
  | nil => rfl
  | cons e es ih => simp [readEntriesAux, List.append_assoc, readEntry_append, ih]

theorem deserializeVault_serializeVault (v : Vault) :
    deserializeVault (serializeVault v) = some v := by
  rcases v with ⟨ver, es⟩
  have h := readEntriesAux_append es []
  rw [List.append_nil] at h
  simp [deserializeVault, serializeVault, readNat, h]

theorem decodeContainer_encodeContainer (c : VaultFile) :
    decodeContainer (encodeContainer c) = some c := by
  rcases c with ⟨ver, ⟨ka, sa, tc, mc, pl⟩, ⟨ca, no⟩, ct⟩
  simp [decodeContainer, encodeContainer, encodeKdf, encodeCipher, readNat,
    List.cons_append, List.append_assoc, readString_append, readBlock_append,
    readBlock_exact]

/-! ## Cryptographic model lemmas -/

theorem encListN_inj {l1 l2 : List Nat} (h : encListN l1 = encListN l2) : l1 = l2 := by
  induction l1 generalizing l2 with
  | nil =>
    cases l2 with
    | nil => rfl
    | cons b l2 => simp only [encListN] at h; omega
  | cons a l1 ih =>
    cases l2 with
    | nil => simp only [encListN] at h; omega
    | cons b l2 =>
      simp only [encListN] at h
      have h' : Nat.pair a (encListN l1) = Nat.pair b (encListN l2) := by omega
      obtain ⟨h1, h2⟩ := Nat.pair_eq_pair.mp h'
      rw [h1, ih h2]

theorem map_toNat_inj {cs ds : List Char} (h : cs.map Char.toNat = ds.map Char.toNat) :
    cs = ds := by
  have h2 := congrArg (List.map Char.ofNat) h
  simpa [List.map_map, Function.comp_def, Char.ofNat_toNat] using h2

theorem encodeStringN_inj {s1 s2 : String} (h : encodeStringN s1 = encodeStringN s2) :
    s1 = s2 := by
  have h1 := map_toNat_inj (encListN_inj h)
  exact congrArg String.mk h1

theorem kdfSeed_inj_password {p1 p2 : String} {k : KdfParams}
    (h : kdfSeed p1 k = kdfSeed p2 k) : p1 = p2 :=
  encodeStringN_inj (Nat.pair_eq_pair.mp h).1

theorem xor_zero_nat (n : Nat) : Nat.xor n 0 = n := Nat.xor_zero n

theorem foldl_xor_replicate_zero (n acc : Nat) :
    List.foldl Nat.xor acc (List.replicate n 0) = acc := by
  induction n generalizing acc with
  | zero => rfl
  | succ n ih => simp [List.replicate_succ, ih, xor_zero_nat]

theorem cipherKeyNat_idealArgon2 (p : String) (k : KdfParams) :
    cipherKeyNat (idealArgon2 p k) = KEY_SIZE ^^^ kdfSeed p k := by
  have hl : (kdfSeed p k :: List.replicate (KEY_SIZE - 1) 0).length = KEY_SIZE := by
    simp [KEY_SIZE]
  unfold cipherKeyNat idealArgon2
  rw [hl, List.foldl_cons, foldl_xor_replicate_zero]
  rfl

theorem cipherKeyNat_inj_seed {p1 p2 : String} {k1 k2 : KdfParams}
    (h : cipherKeyNat (idealArgon2 p1 k1) = cipherKeyNat (idealArgon2 p2 k2)) :
    kdfSeed p1 k1 = kdfSeed p2 k2 := by
  rw [cipherKeyNat_idealArgon2, cipherKeyNat_idealArgon2] at h
  exact Nat.xor_right_inj.mp h

theorem macTag_eq_iff {key1 key2 nonce1 nonce2 body1 body2 : List Nat} :
    macTag key1 nonce1 body1 = macTag key2 nonce2 body2 ↔
      cipherKeyNat key1 = cipherKeyNat key2 ∧ encListN nonce1 = encListN nonce2 ∧
        encListN body1 = encListN body2 := by
  simp [macTag, Nat.pair_eq_pair]

theorem maskFrom_involutive (kn : Nat) (i : Nat) (l : List Nat) :
    maskFrom kn i (maskFrom kn i l) = l := by
  induction l generalizing i with
  | nil => rfl
  | cons a rest ih => simp [maskFrom, Nat.xor_cancel_right, ih]

theorem maskFrom_length (kn : Nat) (i : Nat) (l : List Nat) :
    (maskFrom kn i l).length = l.length := by
  induction l generalizing i with
  | nil => rfl
  | cons a rest ih => simp [maskFrom, ih]

theorem splitLast_append (xs : List Nat) (t : Nat) : splitLast (xs ++ [t]) = some (xs, t) := by
  induction xs with
  | nil => rfl
  | cons a xs ih =>
    cases xs with
    | nil => rfl
    | cons b xs' =>
      simp only [List.cons_append] at ih ⊢
      simp [splitLast, ih]

theorem xor_two_pow_ne (a j : Nat) : a ^^^ 2 ^ j ≠ a := by
  intro h
  have h0 : a ^^^ 2 ^ j = a ^^^ 0 := by simpa using h
  exact absurd (Nat.xor_right_inj.mp h0) (Nat.two_pow_pos j).ne'

theorem getD_set_self (l : List Nat) (i v : Nat) (h : i < l.length) :
    (l.set i v).getD i 0 = v := by
  induction l generalizing i with
  | nil => simp at h
  | cons a l ih =>
    cases i with
    | zero => rfl
    | succ i =>
      simp only [List.set]
      simpa [List.getD] using ih i (by simpa using h)

theorem set_append_left (xs ys : List Nat) (i v : Nat) (h : i < xs.length) :
    (xs ++ ys).set i v = xs.set i v ++ ys := by
  induction xs generalizing i with
  | nil => simp at h
  | cons a xs ih =>
    cases i with
    | zero => rfl
    | succ i =>
      have h2 := ih i (by simpa using h)
      simpa [List.cons_append, List.set] using congrArg (List.cons a) h2

theorem set_append_len (xs : List Nat) (t v : Nat) :
    (xs ++ [t]).set xs.length v = xs ++ [v] := by
  induction xs with
  | nil => rfl
  | cons a xs ih =>
    simp only [List.cons_append, List.length_cons, List.set]
    exact congrArg (List.cons a) ih

theorem getD_append_len (xs : List Nat) (t : Nat) : (xs ++ [t]).getD xs.length 0 = t := by
  rw [List.getD_append_right xs [t] 0 xs.length (Nat.le_refl _)]
  simp

/-! ## Save pipeline lemmas -/

theorem paramsValid_new (rng : Nat → Nat) : paramsValid (KdfParams.new rng) := by
  unfold paramsValid KdfParams.new
  refine ⟨by norm_num, by norm_num, by norm_num⟩

theorem salt_new_length (rng : Nat → Nat) : (KdfParams.new rng).salt.length = SALT_SIZE := by
  simp [KdfParams.new]

theorem nonce_new_length (rng : Nat → Nat) :
    (CipherParams.new rng).nonce.length = NONCE_SIZE := by
  simp [CipherParams.new]

theorem derive_new_ok (p : String) (rng : Nat → Nat) :
    EncryptionKey.derive p (KdfParams.new rng) =
      Except.ok ⟨idealArgon2 p (KdfParams.new rng)⟩ := by
  have h1 := paramsValid_new rng
  have h2 : b64Len (KdfParams.new rng).salt.length ≤ 64 := by
    rw [salt_new_length]; decide
  simp [EncryptionKey.derive, h1, h2]

theorem saveContainer_eq (v : Vault) (p : String) (rS rN : Nat → Nat) :
    saveContainer v p rS rN = Except.ok (saveContainerPure v p rS rN) := by
  simp [saveContainer, saveContainerPure, derive_new_ok, EncryptionKey.encrypt,
    nonce_new_length]

theorem saveOps_eq (path : PathM) (v : Vault) (p : String) (rS rN : Nat → Nat) :
    saveOps path v p rS rN = Except.ok (saveOpsPure path v p rS rN) := by
  simp [saveOps, saveOpsPure, saveContainer_eq]

theorem save_eq (fs : FileSystem) (path : PathM) (v : Vault) (p : String) (rS rN : Nat → Nat) :
    VaultFile.save fs path v p rS rN =
      Except.ok (applyOps fs (saveOpsPure path v p rS rN)) := by
  simp [VaultFile.save, saveOps_eq]

theorem applyOps_save_target (fs : FileSystem) (path : PathM) (v : Vault) (p : String)
    (rS rN : Nat → Nat) :
    applyOps fs (saveOpsPure path v p rS rN) path
      = some (encodeContainer (saveContainerPure v p rS rN)) := by
  simp [applyOps, saveOpsPure, applyOp, fsWrite, fsRename]

theorem load_congr (fs1 fs2 : FileSystem) (path : PathM) (p : String)
    (h : fs1 path = fs2 path) : VaultFile.load fs1 path p = VaultFile.load fs2 path p := by
  unfold VaultFile.load
  rw [h]

theorem load_after_save (fs : FileSystem) (path : PathM) (v : Vault) (p : String)
    (rS rN : Nat → Nat) :
    loadV (applyOps fs (saveOpsPure path v p rS rN)) path p = Except.ok v := by
  unfold loadV VaultFile.load
  rw [applyOps_save_target]
  simp only [decodeContainer_encodeContainer, saveContainerPure]
  simp [derive_new_ok, EncryptionKey.decrypt, nonce_new_length, splitLast_append,
    maskFrom_involutive, deserializeVault_serializeVault]

/-! ## Claim theorems -/

/-- C1: Round trip — for every vault, passphrase, path, filesystem and entropy
draws, `VaultFile.save` succeeds, and `VaultFile.load` from the same path
with the same passphrase succeeds and returns a vault equal to the original
field-for-field (the equality is on the whole `Vault` record, so it covers
each entry's id and created/modified timestamps). -/
theorem c1_save_load_round_trip (fs : FileSystem) (path : PathM) (v : Vault) (p : String)
    (rS rN : Nat → Nat) :
    ∃ fs', VaultFile.save fs path v p rS rN = Except.ok fs' ∧ loadV fs' path p = Except.ok v :=
  ⟨applyOps fs (saveOpsPure path v p rS rN), save_eq fs path v p rS rN,
    load_after_save fs path v p rS rN⟩

theorem load_after_save_wrong_password (fs : FileSystem) (path : PathM) (v : Vault)
    (p1 p2 : String) (rS rN : Nat → Nat) (h : p1 ≠ p2) :
    loadV (applyOps fs (saveOpsPure path v p1 rS rN)) path p2 =
      Except.error Err.AuthenticationError := by
  unfold loadV VaultFile.load
  rw [applyOps_save_target]
  simp only [decodeContainer_encodeContainer, saveContainerPure]
  have hne : macTag (idealArgon2 p1 (KdfParams.new rS)) (CipherParams.new rN).nonce
      (maskFrom (streamKey (idealArgon2 p1 (KdfParams.new rS)) (CipherParams.new rN).nonce) 0
        (serializeVault v)) ≠
      macTag (idealArgon2 p2 (KdfParams.new rS)) (CipherParams.new rN).nonce
      (maskFrom (streamKey (idealArgon2 p1 (KdfParams.new rS)) (CipherParams.new rN).nonce) 0
        (serializeVault v)) := by
    intro heq
    obtain ⟨hk, -, -⟩ := macTag_eq_iff.mp heq
    exact h (kdfSeed_inj_password (cipherKeyNat_inj_seed hk))
  simp [derive_new_ok, EncryptionKey.decrypt, nonce_new_length, splitLast_append, hne]

/-- C2: Wrong passphrase — a container saved under `p1` and loaded under a
different passphrase `p2` always fails with `AuthenticationError` (the AEAD
tag mismatch from `decrypt`); moreover everything the container stores
besides the ciphertext (version, KDF parameters, cipher parameters) is
independent of the passphrase, so decryption failure is the sole
passphrase-verification mechanism — there is no stored password hash. -/
theorem c2_wrong_passphrase_fails_auth (fs : FileSystem) (path : PathM) (v : Vault)
    (p1 p2 : String) (rS rN : Nat → Nat) (h : p1 ≠ p2) :
    ∃ fs', VaultFile.save fs path v p1 rS rN = Except.ok fs' ∧
      loadV fs' path p2 = Except.error Err.AuthenticationError ∧
      (saveContainerPure v p1 rS rN).version = (saveContainerPure v p2 rS rN).version ∧
      (saveContainerPure v p1 rS rN).kdf = (saveContainerPure v p2 rS rN).kdf ∧
      (saveContainerPure v p1 rS rN).cipher = (saveContainerPure v p2 rS rN).cipher :=
  ⟨applyOps fs (saveOpsPure path v p1 rS rN), save_eq fs path v p1 rS rN,
    load_after_save_wrong_password fs path v p1 p2 rS rN h, rfl, rfl, rfl⟩

/-- C2 witness: the wrong-passphrase theorem at the concrete passphrases
"a" and "b", an empty vault, and fixed entropy. -/
theorem c2_witness :
    ("a" : String) ≠ "b" ∧
      (∃ fs', VaultFile.save emptyFS path0 vault0 "a" rngZero rngZero = Except.ok fs' ∧
        loadV fs' path0 "b" = Except.error Err.AuthenticationError ∧
        (saveContainerPure vault0 "a" rngZero rngZero).version
          = (saveContainerPure vault0 "b" rngZero rngZero).version ∧
        (saveContainerPure vault0 "a" rngZero rngZero).kdf
          = (saveContainerPure vault0 "b" rngZero rngZero).kdf ∧
        (saveContainerPure vault0 "a" rngZero rngZero).cipher
          = (saveContainerPure vault0 "b" rngZero rngZero).cipher) :=
  ⟨by decide, c2_wrong_passphrase_fails_auth emptyFS path0 vault0 "a" "b" rngZero rngZero
    (by decide)⟩

theorem decrypt_flip_fails (keyList : List Nat) (cp : CipherParams) (body : List Nat)
    (i j : Nat) (hn : cp.nonce.length = NONCE_SIZE) (hi : i < body.length + 1) :
    EncryptionKey.decrypt ⟨keyList⟩
        (flipBit (body ++ [macTag keyList cp.nonce body]) i j) cp =
      Except.error Err.AuthenticationError := by
  rcases Nat.lt_succ_iff_lt_or_eq.mp hi with hA | hB
  · have hflip : flipBit (body ++ [macTag keyList cp.nonce body]) i j
        = body.set i (body.getD i 0 ^^^ 2 ^ j) ++ [macTag keyList cp.nonce body] := by
      unfold flipBit
      rw [List.getD_append _ _ _ _ hA, set_append_left _ _ _ _ hA]
    have hne : macTag keyList cp.nonce body ≠
        macTag keyList cp.nonce (body.set i (body.getD i 0 ^^^ 2 ^ j)) := by
      intro heq
      obtain ⟨-, -, hb⟩ := macTag_eq_iff.mp heq
      have hbody := encListN_inj hb
      have hsets := getD_set_self body i (body.getD i 0 ^^^ 2 ^ j) hA
      rw [← hbody] at hsets
      exact xor_two_pow_ne (body.getD i 0) j hsets.symm
    rw [hflip]
    unfold EncryptionKey.decrypt
    simp [hn, splitLast_append]
    simpa using hne
  · subst hB
    have hflip : flipBit (body ++ [macTag keyList cp.nonce body]) body.length j
        = body ++ [macTag keyList cp.nonce body ^^^ 2 ^ j] := by
      unfold flipBit
      rw [getD_append_len, set_append_len]
    rw [hflip]
    unfold EncryptionKey.decrypt
    simp [hn, splitLast_append, xor_two_pow_ne]

/-- C3: Tamper detection — for every saved container and every single-bit
modification of its stored ciphertext bytes (any byte index `i` within the
ciphertext and any bit position `j`), a load with the original passphrase
fails with `AuthenticationError`. -/
theorem c3_tamper_detection (fs : FileSystem) (path : PathM) (v : Vault) (p : String)
    (rS rN : Nat → Nat) (i j : Nat) (c : VaultFile)
    (hc : saveContainer v p rS rN = Except.ok c) (hi : i < c.ciphertext.length) :
    loadV (fsWrite fs path (encodeContainer { c with ciphertext := flipBit c.ciphertext i j }))
      path p = Except.error Err.AuthenticationError := by
  rw [saveContainer_eq] at hc
  have hc2 : saveContainerPure v p rS rN = c := Except.ok.inj hc
  subst hc2
  simp only [saveContainerPure, List.length_append, List.length_cons,
    List.length_nil] at hi
  have hd := decrypt_flip_fails (idealArgon2 p (KdfParams.new rS)) (CipherParams.new rN)
    (maskFrom (streamKey (idealArgon2 p (KdfParams.new rS)) (CipherParams.new rN).nonce) 0
      (serializeVault v)) i j (nonce_new_length rN) (by simpa using hi)
  unfold loadV VaultFile.load
  have hfs : fsWrite fs path (encodeContainer
      { saveContainerPure v p rS rN with
        ciphertext := flipBit (saveContainerPure v p rS rN).ciphertext i j }) path
      = some (encodeContainer
      { saveContainerPure v p rS rN with
        ciphertext := flipBit (saveContainerPure v p rS rN).ciphertext i j }) := by
    simp [fsWrite]
  rw [hfs]
  simp only [decodeContainer_encodeContainer, saveContainerPure]
  simp [derive_new_ok, hd]

/-- C3 witness: flipping bit 0 of ciphertext byte 0 of a concrete saved
container makes the load fail with `AuthenticationError`. -/
theorem c3_witness :
    saveContainer vault0 "a" rngZero rngZero
        = Except.ok (saveContainerPure vault0 "a" rngZero rngZero) ∧
      0 < (saveContainerPure vault0 "a" rngZero rngZero).ciphertext.length ∧
      loadV (fsWrite emptyFS path0 (encodeContainer
          { saveContainerPure vault0 "a" rngZero rngZero with
            ciphertext := flipBit (saveContainerPure vault0 "a" rngZero rngZero).ciphertext 0 0 }))
        path0 "a" = Except.error Err.AuthenticationError := by
  have hc := saveContainer_eq vault0 "a" rngZero rngZero
  have hi : (0 : Nat) < (saveContainerPure vault0 "a" rngZero rngZero).ciphertext.length := by
    simp [saveContainerPure]
  exact ⟨hc, hi, c3_tamper_detection emptyFS path0 vault0 "a" rngZero rngZero 0 0 _ hc hi⟩

/-- C4: Version gate — for every stored, well-formed container whose version
field is not 1, `load` fails with `UnsupportedVersionError` and performs no
cryptographic operation: the recorded event list is empty, so neither key
derivation nor decryption ran. -/
theorem c4_version_gate (fs : FileSystem) (path : PathM) (p : String)
    (contents : List Nat) (vf : VaultFile)
    (hread : fs path = some contents) (hdec : decodeContainer contents = some vf)
    (hv : vf.version ≠ 1) :
    VaultFile.load fs path p = (Except.error (Err.UnsupportedVersionError vf.version), []) := by
  unfold VaultFile.load
  rw [hread]
  simp [hdec, hv]

/-- C4 witness: a concrete version-2 container is rejected with
`UnsupportedVersionError 2` and no cryptographic operation is recorded. -/
theorem c4_witness :
    fsWrite emptyFS path0 (encodeContainer vfBad) path0 = some (encodeContainer vfBad) ∧
      decodeContainer (encodeContainer vfBad) = some vfBad ∧
      vfBad.version ≠ 1 ∧
      VaultFile.load (fsWrite emptyFS path0 (encodeContainer vfBad)) path0 "a"
        = (Except.error (Err.UnsupportedVersionError vfBad.version), []) := by
  refine ⟨by simp [fsWrite], decodeContainer_encodeContainer vfBad, by decide, ?_⟩
  exact c4_version_gate (fsWrite emptyFS path0 (encodeContainer vfBad)) path0 "a"
    (encodeContainer vfBad) vfBad (by simp [fsWrite]) (decodeContainer_encodeContainer vfBad)
    (by decide)

/-- C5: Non-determinism across saves — two saves of the same vault and
passphrase whose entropy draws differ (the idealization of two independent
fresh random draws) produce containers with different salts, different
nonces, different ciphertext bytes, and in particular distinct
(salt, nonce) pairs. -/
theorem c5_fresh_params_differ (v : Vault) (p : String) (rS1 rN1 rS2 rN2 : Nat → Nat)
    (c1 c2 : VaultFile)
    (h1 : saveContainer v p rS1 rN1 = Except.ok c1)
    (h2 : saveContainer v p rS2 rN2 = Except.ok c2)
    (hs : (List.range SALT_SIZE).map rS1 ≠ (List.range SALT_SIZE).map rS2)
    (hn : (List.range NONCE_SIZE).map rN1 ≠ (List.range NONCE_SIZE).map rN2) :
    c1.kdf.salt ≠ c2.kdf.salt ∧ c1.cipher.nonce ≠ c2.cipher.nonce ∧
      c1.ciphertext ≠ c2.ciphertext ∧
      (c1.kdf.salt, c1.cipher.nonce) ≠ (c2.kdf.salt, c2.cipher.nonce) := by
  rw [saveContainer_eq] at h1 h2
  have e1 : saveContainerPure v p rS1 rN1 = c1 := Except.ok.inj h1
  have e2 : saveContainerPure v p rS2 rN2 = c2 := Except.ok.inj h2
  subst e1
  subst e2
  refine ⟨?_, ?_, ?_, ?_⟩
  · simpa [saveContainerPure, KdfParams.new] using hs
  · simpa [saveContainerPure, CipherParams.new] using hn
  · intro hct
    simp only [saveContainerPure] at hct
    have hsp := congrArg splitLast hct
    rw [splitLast_append, splitLast_append] at hsp
    have htag := congrArg Prod.snd (Option.some.inj hsp)
    obtain ⟨-, hnn, -⟩ := macTag_eq_iff.mp htag
    have hnonce := encListN_inj hnn
    simp only [CipherParams.new] at hnonce
    exact hn hnonce
  · intro hp
    have hfst := congrArg Prod.fst hp
    simp only [saveContainerPure, KdfParams.new] at hfst
    exact hs hfst

/-- C5 witness: two saves drawing all-zero and all-one entropy produce
containers with different salts, nonces and ciphertext bytes. -/
theorem c5_witness :
    saveContainer vault0 "a" rngZero rngZero
        = Except.ok (saveContainerPure vault0 "a" rngZero rngZero) ∧
      saveContainer vault0 "a" rngOne rngOne
        = Except.ok (saveContainerPure vault0 "a" rngOne rngOne) ∧
      (List.range SALT_SIZE).map rngZero ≠ (List.range SALT_SIZE).map rngOne ∧
      (List.range NONCE_SIZE).map rngZero ≠ (List.range NONCE_SIZE).map rngOne ∧
      ((saveContainerPure vault0 "a" rngZero rngZero).kdf.salt
          ≠ (saveContainerPure vault0 "a" rngOne rngOne).kdf.salt ∧
        (saveContainerPure vault0 "a" rngZero rngZero).cipher.nonce
          ≠ (saveContainerPure vault0 "a" rngOne rngOne).cipher.nonce ∧
        (saveContainerPure vault0 "a" rngZero rngZero).ciphertext
          ≠ (saveContainerPure vault0 "a" rngOne rngOne).ciphertext ∧
        ((saveContainerPure vault0 "a" rngZero rngZero).kdf.salt,
            (saveContainerPure vault0 "a" rngZero rngZero).cipher.nonce)
          ≠ ((saveContainerPure vault0 "a" rngOne rngOne).kdf.salt,
            (saveContainerPure vault0 "a" rngOne rngOne).cipher.nonce)) := by
  have h1 := saveContainer_eq vault0 "a" rngZero rngZero
  have h2 := saveContainer_eq vault0 "a" rngOne rngOne
  have hs : (List.range SALT_SIZE).map rngZero ≠ (List.range SALT_SIZE).map rngOne := by decide
  have hn : (List.range NONCE_SIZE).map rngZero ≠ (List.range NONCE_SIZE).map rngOne := by
    decide
  exact ⟨h1, h2, hs, hn,
    c5_fresh_params_differ vault0 "a" rngZero rngZero rngOne rngOne _ _ h1 h2 hs hn⟩

/-- C6 (amended): Atomicity of save — provided the target path's extension
is not "tmp" (so the temporary path `path.with_extension("tmp")` is distinct
from the target), executing any prefix of the save's filesystem operations
that stops before the rename leaves the target path's contents unchanged,
and a load from the target with any passphrase returns exactly what it
returned before the interrupted save. -/
theorem c6_atomic_save_amended (fs : FileSystem) (path : PathM) (v : Vault) (p q : String)
    (rS rN : Nat → Nat) (k : Nat) (hext : path.ext ≠ some "tmp") (hk : k ≤ 1) :
    applyOps fs ((saveOpsPure path v p rS rN).take k) path = fs path ∧
      VaultFile.load (applyOps fs ((saveOpsPure path v p rS rN).take k)) path q
        = VaultFile.load fs path q := by
  have hne : path ≠ path.withExtension "tmp" := by
    intro h
    exact hext (congrArg PathM.ext h)
  have htarget : applyOps fs ((saveOpsPure path v p rS rN).take k) path = fs path := by
    interval_cases k
    · rfl
    · simp [saveOpsPure, applyOps, applyOp, fsWrite, hne]
  exact ⟨htarget, load_congr _ _ _ _ htarget⟩

/-- C6 witness: a save of new contents onto a previously saved vault at
`path0`, interrupted right after the temp-file write (before the rename),
leaves the target's contents and its load result unchanged. -/
theorem c6_witness :
    path0.ext ≠ some "tmp" ∧ (1 : Nat) ≤ 1 ∧
      (applyOps fsPrev ((saveOpsPure path0 vault0 "b" rngOne rngOne).take 1) path0
          = fsPrev path0 ∧
        VaultFile.load (applyOps fsPrev ((saveOpsPure path0 vault0 "b" rngOne rngOne).take 1))
            path0 "a" = VaultFile.load fsPrev path0 "a") :=
  ⟨by decide, by decide,
    c6_atomic_save_amended fsPrev path0 vault0 "b" "a" rngOne rngOne 1 (by decide) (by decide)⟩

/-- C6 counterexample: when the target path's extension is already "tmp",
`Path::with_extension("tmp")` yields the target path itself, so the
temp-file write — which happens before the rename — already overwrites the
previously persisted container: a save interrupted before the rename step
has changed the target. -/
theorem c6_counterexample :
    saveOps pathTmp vault0 "b" rngOne rngOne
        = Except.ok (saveOpsPure pathTmp vault0 "b" rngOne rngOne) ∧
      applyOps fs6 ((saveOpsPure pathTmp vault0 "b" rngOne rngOne).take 1) pathTmp
        ≠ fs6 pathTmp := by
  refine ⟨saveOps_eq pathTmp vault0 "b" rngOne rngOne, ?_⟩
  intro h
  have htmp : pathTmp.withExtension "tmp" = pathTmp := rfl
  have h1 : some (encodeContainer (saveContainerPure vault0 "b" rngOne rngOne))
      = some (encodeContainer (saveContainerPure vault0 "a" rngZero rngZero)) := by
    simpa [saveOpsPure, applyOps, applyOp, fsWrite, fs6, htmp] using h
  have h3 := congrArg decodeContainer (Option.some.inj h1)
  rw [decodeContainer_encodeContainer, decodeContainer_encodeContainer] at h3
  have h4 := congrArg (fun c : VaultFile => c.kdf.salt) (Option.some.inj h3)
  simp only [saveContainerPure, KdfParams.new] at h4
  exact absurd h4 (by decide)

/-- C7 counterexample: KDF parameters with self-consistent costs but a
49-byte salt (Base64 length 66, over the 64-character salt-string limit)
make `derive` fail with the salt-encoding error — an outcome the claim's
enumeration (32-byte key, `ParameterError`, `DerivationError`) does not
contain. -/
theorem c7_counterexample :
    paramsValid kdfLongSalt ∧
      EncryptionKey.derive "a" kdfLongSalt = Except.error Err.SaltEncodeError ∧
      Err.SaltEncodeError ≠ Err.ParameterError ∧
      Err.SaltEncodeError ≠ Err.DerivationError := by
  have h1 : paramsValid kdfLongSalt := by decide
  have h2 : ¬ b64Len kdfLongSalt.salt.length ≤ 64 := by decide
  refine ⟨h1, ?_, by decide, by decide⟩
  unfold EncryptionKey.derive
  rw [if_pos h1, if_neg h2]

/-- C7 (amended): Key derivation postcondition — for every passphrase and
every `KdfParams`, `derive` either fails with `ParameterError` when the cost
parameters are not self-consistent, or fails with the salt-encoding error
when the salt's Base64 encoding exceeds the 64-character salt-string limit,
or returns a key of exactly 32 bytes; the `DerivationError` outcome (an
internal failure of the KDF primitive) cannot occur in the idealized
primitive. -/
theorem c7_derive_outcomes_amended (p : String) (k : KdfParams) :
    (¬ paramsValid k ∧ EncryptionKey.derive p k = Except.error Err.ParameterError) ∨
      (paramsValid k ∧ 64 < b64Len k.salt.length ∧
        EncryptionKey.derive p k = Except.error Err.SaltEncodeError) ∨
      (paramsValid k ∧ b64Len k.salt.length ≤ 64 ∧
        ∃ key : EncryptionKey, EncryptionKey.derive p k = Except.ok key ∧
          key.key.length = KEY_SIZE) := by
  by_cases hv : paramsValid k
  · by_cases hs : b64Len k.salt.length ≤ 64
    · refine Or.inr (Or.inr ⟨hv, hs, ⟨idealArgon2 p k⟩, ?_, ?_⟩)
      · unfold EncryptionKey.derive
        rw [if_pos hv, if_pos hs]
      · simp [idealArgon2, KEY_SIZE]
    · refine Or.inr (Or.inl ⟨hv, by omega, ?_⟩)
      unfold EncryptionKey.derive
      rw [if_pos hv, if_neg hs]
  · refine Or.inl ⟨hv, ?_⟩
    unfold EncryptionKey.derive
    rw [if_neg hv]

/-- C8: No mutation on load failure — when the load fails (for any failure
kind), `App::unlock` leaves the application state unchanged except for the
status message and the cleared passphrase entry buffer; in particular the
vault (entries included) and the mode are exactly as before, and the call
reports failure. -/
theorem c8_unlock_failure_frame (fs : FileSystem) (a : App) (now : Nat) (e : Err)
    (h : loadV fs a.vault_path a.unlock_input = Except.error e) :
    (App.unlock fs a now).1
        = ({ a with unlock_input := "" }).setStatus "Incorrect password or vault error" ∧
      (App.unlock fs a now).1.vault = a.vault ∧
      (App.unlock fs a now).1.mode = a.mode ∧
      (App.unlock fs a now).2 = false := by
  have hu : App.unlock fs a now
      = (({ a with unlock_input := "" }).setStatus "Incorrect password or vault error",
          false) := by
    unfold App.unlock
    rw [h]
  rw [hu]
  refine ⟨rfl, ?_, ?_, rfl⟩ <;> simp [App.setStatus]

/-- C8 witness: a failed unlock over the empty filesystem (an I/O failure of
the load) leaves the locked state's vault and mode untouched. -/
theorem c8_witness :
    loadV emptyFS app0.vault_path app0.unlock_input = Except.error Err.IoError ∧
      ((App.unlock emptyFS app0 0).1
          = ({ app0 with unlock_input := "" }).setStatus "Incorrect password or vault error" ∧
        (App.unlock emptyFS app0 0).1.vault = app0.vault ∧
        (App.unlock emptyFS app0 0).1.mode = app0.mode ∧
        (App.unlock emptyFS app0 0).2 = false) :=
  ⟨rfl, c8_unlock_failure_frame emptyFS app0 0 Err.IoError rfl⟩

theorem derive_algorithm_canon (p : String) (alg : String) (salt : List Nat)
    (t m par : Nat) :
    EncryptionKey.derive p ⟨alg, salt, t, m, par⟩
      = EncryptionKey.derive p ⟨"", salt, t, m, par⟩ := rfl

theorem decrypt_algorithm_canon (key : EncryptionKey) (ct : List Nat) (alg : String)
    (nonce : List Nat) :
    key.decrypt ct ⟨alg, nonce⟩ = key.decrypt ct ⟨"", nonce⟩ := rfl

/-- C10: the `kdf.algorithm` and `cipher.algorithm` strings stored in a
container are never inspected by `load`: replacing both with arbitrary
strings leaves the entire load result unchanged (success and failure
alike), so a version-1 container declaring different or garbage algorithm
names is still processed with the fixed primitives. -/
theorem c10_algorithm_fields_ignored (fs : FileSystem) (path : PathM) (p : String)
    (vf : VaultFile) (a1 b1 a2 b2 : String) :
    VaultFile.load (fsWrite fs path (encodeContainer (withAlgorithms vf a1 b1))) path p
      = VaultFile.load (fsWrite fs path (encodeContainer (withAlgorithms vf a2 b2))) path p := by
  unfold VaultFile.load
  have h1 : fsWrite fs path (encodeContainer (withAlgorithms vf a1 b1)) path
      = some (encodeContainer (withAlgorithms vf a1 b1)) := by simp [fsWrite]
  have h2 : fsWrite fs path (encodeContainer (withAlgorithms vf a2 b2)) path
      = some (encodeContainer (withAlgorithms vf a2 b2)) := by simp [fsWrite]
  rw [h1, h2]
  simp only [decodeContainer_encodeContainer, withAlgorithms]
  simp only [derive_algorithm_canon, decrypt_algorithm_canon]

end Passmngr
